import Mathlib

/-!
Shallow embedding of the insurance-policy RAG core of this repository:
`app/validation.py` (quality gate, faithfulness parsing, hallucinated-number
check, confidence scoring) and `app/rag_pipeline.py` (personal-intent
detection, hybrid BM25 + semantic score fusion, context formatting).

Modelling conventions:
- Python floats are modelled by `ℚ` (exact arithmetic).
- Python lists are `List`; a Python `dict` (insertion-ordered) is an
  association list with Python's assignment semantics: overwriting an
  existing key keeps its original position, a fresh key is appended.
- External collaborators (the BM25 index scores, the semantic vector search,
  the fact-checking LLM call) are parameters of the embedded functions.
- Python's stable `sorted` is modelled by `List.insertionSort`, which is
  stable; the output of a stable sort is uniquely determined by the key
  order and the input order, so this agrees with CPython's sort.
- Python string primitives (`in`, `split`, `strip`, `lower`, `upper`) are
  implemented over `List Char` so that they compute by structural recursion.
-/

/-! ## Generic string / list helpers (Python primitives) -/

/-- Test whether `needle` is a prefix of `hay` (by `==`). -/
def prefixAt {α : Type} [BEq α] : List α → List α → Bool
  | [], _ => true
  | _ :: _, [] => false
  | a :: as, b :: bs => a == b && prefixAt as bs

/-- Test whether `needle` occurs contiguously inside `hay` (by `==`). -/
def hasSubList {α : Type} [BEq α] (needle : List α) : List α → Bool
  | [] => prefixAt needle []
  | b :: bs => prefixAt needle (b :: bs) || hasSubList needle bs

/-- Python's substring test `needle in hay` on strings. -/
def pyContains (needle hay : String) : Bool :=
  hasSubList needle.data hay.data

/-- Python `str.lower()` (the code only feeds ASCII text to it). -/
def pyLower (s : String) : String := String.mk (s.data.map Char.toLower)

/-- Python `str.upper()` (the code only compares against ASCII "YES"). -/
def pyUpper (s : String) : String := String.mk (s.data.map Char.toUpper)

/-- Worker for `pySplitOn`: Python `str.split(sep)` with a nonempty
separator, scanning left to right, cutting at each non-overlapping
occurrence.  The fuel argument is the remaining input length. -/
def splitAux (sep : List Char) : ℕ → List Char → List Char → List (List Char)
  | _, acc, [] => [acc.reverse]
  | 0, acc, rest => [acc.reverse ++ rest]
  | fuel + 1, acc, c :: cs =>
    if prefixAt sep (c :: cs) then
      acc.reverse :: splitAux sep fuel [] ((c :: cs).drop sep.length)
    else
      splitAux sep fuel (c :: acc) cs

/-- Python `s.split(sep)` for a nonempty separator string. -/
def pySplitOn (s sep : String) : List String :=
  (splitAux sep.data s.data.length [] s.data).map (fun l => String.mk l)

/-- Python `str.strip()` (whitespace from both ends). -/
def pyStrip (s : String) : String :=
  String.mk (((s.data.dropWhile Char.isWhitespace).reverse.dropWhile
    Char.isWhitespace).reverse)

/-- Numeric value of a list of ASCII digits. -/
def digitsVal (ds : List Char) : ℕ :=
  ds.foldl (fun n c => n * 10 + (c.toNat - 48)) 0

/-- Models CPython's `float(string)` on the decimal forms
`[+-]digits[.digits][e[+-]digits]` (the shapes that matter for the
confidence field); every other input yields `none`, modelling the
`ValueError` that the code catches. -/
def pyFloat? (s : String) : Option ℚ :=
  let cs := s.data
  let sgnSplit : ℚ × List Char :=
    match cs with
    | '-' :: r => (-1, r)
    | '+' :: r => (1, r)
    | _ => (1, cs)
  let sgn := sgnSplit.1
  let cs1 := sgnSplit.2
  let ip := cs1.takeWhile Char.isDigit
  let cs2 := cs1.drop ip.length
  let fpSplit : List Char × List Char :=
    match cs2 with
    | '.' :: r => (r.takeWhile Char.isDigit, r.drop (r.takeWhile Char.isDigit).length)
    | _ => ([], cs2)
  let fp := fpSplit.1
  let cs3 := fpSplit.2
  if ip.isEmpty && fp.isEmpty then none
  else
    let mant : ℚ := (digitsVal ip : ℚ) + (digitsVal fp : ℚ) / ((10 : ℚ) ^ fp.length)
    match cs3 with
    | [] => some (sgn * mant)
    | e :: r =>
      if e == 'e' || e == 'E' then
        let esgnSplit : ℤ × List Char :=
          match r with
          | '-' :: rr => (-1, rr)
          | '+' :: rr => (1, rr)
          | _ => (1, r)
        let ed := esgnSplit.2.takeWhile Char.isDigit
        if ed.isEmpty || !(esgnSplit.2.drop ed.length).isEmpty then none
        else some (sgn * mant * (10 : ℚ) ^ (esgnSplit.1 * (digitsVal ed : ℤ)))
      else none

/-- Python `max(list)`: `none` models the `ValueError` on an empty list. -/
def pyMax (l : List ℚ) : Option ℚ := l.max?

/-- Renders a rational with two decimal places, modelling the `f"{x:.2f}"`
format used in the retrieval-quality message (rounding half-up on the
magnitude; CPython rounds the underlying binary float half-even — the
difference is immaterial to the properties proved below, which only use
that the rendered score occurs inside the message). -/
def fmt2 (q : ℚ) : String :=
  let sgn := if q < 0 then "-" else ""
  let n : ℕ := (⌊|q| * 100 + 1/2⌋).toNat
  let fp := n % 100
  sgn ++ toString (n / 100) ++ "." ++
    (if fp < 10 then "0" ++ toString fp else toString fp)

/-! ## Data model: chunks and their metadata records

A chunk is a `langchain` `Document`: text plus a flat metadata dict.  The
fields below are exactly the keys the embedded code reads or writes; `none`
models an absent key. -/

/-- A metadata "page" value may be an int or a string in the source corpus. -/
inductive PageV where
  | int (n : ℤ)
  | str (s : String)
deriving DecidableEq, Repr

structure Metadata where
  source : Option String := none
  docSection : Option String := none
  page : Option PageV := none
  policy_type : Option String := none
  policy_number : Option String := none
  is_default_doc : Option Bool := none
  relevance_score : Option ℚ := none
  is_personal_policy : Option Bool := none
deriving DecidableEq, Repr

structure Chunk where
  page_content : String
  metadata : Metadata
deriving DecidableEq, Repr

/-! ## Configuration constants (`app/config.py`) -/

def MIN_RELEVANCE_SCORE : ℚ := 0.5
def BM25_WEIGHT : ℚ := 0.5
def SEMANTIC_WEIGHT : ℚ := 0.5
def ENABLE_FAITHFULNESS_CHECK : Bool := true
def HYBRID_SEARCH_ENABLED : Bool := true

/-! ## `app/validation.py` -/

/-- The average relevance computed by `check_retrieval_quality`:
`scores = [doc.metadata.get("relevance_score", 0.0) for doc in docs]` then
`sum(scores) / len(scores) if scores else 0.0`. -/
def avgRelevance (docs : List Chunk) : ℚ :=
  let scores := docs.map (fun d => d.metadata.relevance_score.getD 0)
  if scores.isEmpty then 0 else scores.sum / (scores.length : ℚ)

/-- `check_retrieval_quality(docs)` from `app/validation.py`. -/
def check_retrieval_quality (docs : List Chunk) : Bool × ℚ × String :=
  if docs.isEmpty then
    (false, 0, "No relevant documents found in the knowledge base.")
  else
    let avg_score := avgRelevance docs
    if avg_score < MIN_RELEVANCE_SCORE then
      (false, avg_score,
        "Retrieved documents have low relevance (score: " ++ fmt2 avg_score ++
          "). The answer may not be reliable.")
    else
      (true, avg_score, "Retrieval quality is good.")

/-- `should_answer_question(docs, retrieval_quality)` from
`app/validation.py`. -/
def should_answer_question (docs : List Chunk) (rq : Bool × ℚ × String) :
    Bool × String :=
  let is_sufficient := rq.1
  let message := rq.2.2
  if docs.isEmpty then
    (false, "No relevant policy documents found. Please ensure documents have been ingested.")
  else if !is_sufficient then
    (false, "Insufficient context to provide a reliable answer. " ++ message)
  else
    (true, "")

/-- The level cascade of `calculate_confidence_score`:
`"high" if confidence >= 0.8 elif >= 0.6 "medium" else "low"`. -/
def confidenceLevel (confidence : ℚ) : String :=
  if confidence ≥ 0.8 then "high"
  else if confidence ≥ 0.6 then "medium"
  else "low"

/-- `calculate_confidence_score(...)` from `app/validation.py`. -/
def calculate_confidence_score (retrieval_score faithfulness_score : ℚ)
    (has_specific_citations : Bool) : ℚ × String :=
  let confidence :=
    retrieval_score * 0.4 + faithfulness_score * 0.4 +
      (if has_specific_citations then (1 : ℚ) else 0.5) * 0.2
  (confidence, confidenceLevel confidence)

/-- `validate_response_faithfulness(answer, context, question)` from
`app/validation.py`.  The LLM chain invocation is an external collaborator:
its outcome is the parameter `llmResult` (`Except.error e` models a raised
exception with message `e`, caught by the function's outer `try`).  A
response without "FAITHFUL:" makes `result.split("FAITHFUL:")[1]` raise
`IndexError`, also caught by the outer `try`; the inner bare `except`
around `float(...)` catches both a missing "CONFIDENCE:" segment and an
unparsable confidence string. -/
def validate_response_faithfulness (llmResult : Except String String) :
    Bool × ℚ × String :=
  if ENABLE_FAITHFULNESS_CHECK = false then (true, 1, "Faithfulness check disabled")
  else
    match llmResult with
    | Except.error e => (true, 0.5, "Validation error: " ++ e)
    | Except.ok result =>
      match (pySplitOn result "FAITHFUL:").get? 1 with
      | none => (true, 0.5, "Validation error: list index out of range")
      | some seg =>
        let faithful := pyContains "YES" (pyUpper ((pySplitOn seg "\n").headD ""))
        let confidence : ℚ :=
          match (pySplitOn result "CONFIDENCE:").get? 1 with
          | none => if faithful then 0.7 else 0.3
          | some cseg =>
            match pyFloat? (pyStrip ((pySplitOn cseg "\n").headD "")) with
            | some v => v
            | none => if faithful then 0.7 else 0.3
        let explanation :=
          if pyContains "EXPLANATION:" result then
            pyStrip ((pySplitOn result "EXPLANATION:").getD 1 "")
          else "Validation completed"
        (faithful, confidence, explanation)

/-! ## `check_for_hallucinated_numbers` (`app/validation.py`)

The two `re.findall` patterns are implemented directly:
`\$[\d,]+(?:\.\d{2})?` and `[A-Z]{2,4}[-\s]?\d{4}[-\s]?\d{4,6}`, with
`re.findall`'s left-to-right, non-overlapping, greedy/backtracking
semantics (ASCII classes; the corpus and examples are ASCII). -/

def isAmountChar (c : Char) : Bool := c.isDigit || c == ','

/-- Match `\$[\d,]+(?:\.\d{2})?` at the head of the input; returns the
matched token and the rest.  `[\d,]+` is greedy and unambiguous (it cannot
eat the `.`); the optional group is taken exactly when `.` plus two digits
follow. -/
def tryAmount (cs : List Char) : Option (List Char × List Char) :=
  match cs with
  | '$' :: rest =>
    let ds := rest.takeWhile isAmountChar
    if ds.isEmpty then none
    else
      let r1 := rest.drop ds.length
      match r1 with
      | '.' :: d1 :: d2 :: r2 =>
        if d1.isDigit && d2.isDigit then some ('$' :: (ds ++ ['.', d1, d2]), r2)
        else some ('$' :: ds, r1)
      | _ => some ('$' :: ds, r1)
  | _ => none

/-- `re.findall` scan for the currency pattern (fuel = input length). -/
def scanAmounts : ℕ → List Char → List String
  | 0, _ => []
  | _, [] => []
  | fuel + 1, c :: cs =>
    if c == '$' then
      match tryAmount (c :: cs) with
      | some (tok, rest) => String.mk tok :: scanAmounts fuel rest
      | none => scanAmounts fuel cs
    else scanAmounts fuel cs

def extractAmounts (s : String) : List String := scanAmounts s.data.length s.data

def isUpperAZ (c : Char) : Bool := 'A' ≤ c && c ≤ 'Z'

/-- The regex class `[-\s]`. -/
def isSepChar (c : Char) : Bool :=
  c == '-' || c == ' ' || c == '\t' || c == '\n' || c == '\r' ||
    c == '\x0b' || c == '\x0c'

def hasNDigits (n : ℕ) (cs : List Char) : Bool :=
  (cs.take n).length == n && (cs.take n).all Char.isDigit

/-- Backtracking choices for the optional `[-\s]?`: greedy tries to consume
one separator first, then none. -/
def sepChoices (cs : List Char) : List ℕ :=
  match cs with
  | c :: _ => if isSepChar c then [1, 0] else [0]
  | [] => [0]

/-- Greedy `\d{4,6}`: longest first. -/
def digitsRange46 (cs : List Char) : Option ℕ :=
  if hasNDigits 6 cs then some 6
  else if hasNDigits 5 cs then some 5
  else if hasNDigits 4 cs then some 4
  else none

/-- Match `[-\s]?\d{4,6}` (with backtracking over the optional separator). -/
def matchSecondPart (cs : List Char) : Option ℕ :=
  (sepChoices cs).findSome? (fun a => (digitsRange46 (cs.drop a)).map (fun d => a + d))

/-- Match `[-\s]?\d{4}[-\s]?\d{4,6}`. -/
def matchTailAll (cs : List Char) : Option ℕ :=
  (sepChoices cs).findSome? (fun a =>
    let cs1 := cs.drop a
    if hasNDigits 4 cs1 then (matchSecondPart (cs1.drop 4)).map (fun t => a + 4 + t)
    else none)

/-- Match `[A-Z]{2,4}[-\s]?\d{4}[-\s]?\d{4,6}` at the head of the input,
returning the matched length; `{2,4}` is greedy with backtracking. -/
def tryPolicyLen (cs : List Char) : Option ℕ :=
  [4, 3, 2].findSome? (fun nl =>
    if (cs.take nl).length == nl && (cs.take nl).all isUpperAZ then
      (matchTailAll (cs.drop nl)).map (fun t => nl + t)
    else none)

/-- `re.findall` scan for the policy-number pattern (fuel = input length). -/
def scanPolicyNums : ℕ → List Char → List String
  | 0, _ => []
  | _, [] => []
  | fuel + 1, c :: cs =>
    match tryPolicyLen (c :: cs) with
    | some len =>
      String.mk ((c :: cs).take len) :: scanPolicyNums fuel ((c :: cs).drop len)
    | none => scanPolicyNums fuel cs

def extractPolicyNums (s : String) : List String :=
  scanPolicyNums s.data.length s.data

/-- `check_for_hallucinated_numbers(answer, context)` from
`app/validation.py`. -/
def check_for_hallucinated_numbers (answer context : String) : List String :=
  let answer_amounts := extractAmounts answer
  let answer_policy_nums := extractPolicyNums answer
  let h1 := answer_amounts.foldl
    (fun acc amount =>
      if pyContains amount context then acc
      else acc ++ ["Amount " ++ amount ++ " not found in policy documents"]) []
  answer_policy_nums.foldl
    (fun acc pn =>
      if pyContains pn context then acc
      else acc ++ ["Policy number " ++ pn ++ " not found in documents"]) h1

/-! ## `app/rag_pipeline.py`: intent detection and hybrid fusion -/

/-- The `personal_indicators` list of `detect_personal_query_intent`
(several entries deliberately carry a trailing space). -/
def personal_indicators : List String :=
  ["my ", "am i ", "do i ", "does my", "is my", "will my",
   "what is my", "what's my", "how much is my",
   "under my", "in my policy", "my coverage",
   "i am ", "i have"]

/-- `detect_personal_query_intent(query)`: Python's `indicator in
query_lower` substring membership over the indicator list. -/
def detect_personal_query_intent (query : String) : Bool :=
  let query_lower := pyLower query
  personal_indicators.any (fun indicator => pyContains indicator query_lower)

/-- The words of a string: lowercased, split on whitespace, empties
dropped.  Used only to state claim C7's "whole-word match" reading. -/
def wordsOf (s : String) : List String :=
  (splitAux [' '] s.data.length [] (pyLower s).data).map (fun l => String.mk l)

/-- The intent classifier as the spec words it — "contains a
personal-possessive marker as a whole-word or whole-phrase match": some
indicator, read as a word sequence, occurs contiguously in the query's
word sequence.  This follows the spec's words, for comparison against
`detect_personal_query_intent`. -/
def specWholeWordIntent (query : String) : Bool :=
  let ws := (wordsOf query).filter (fun w => w ≠ "")
  personal_indicators.any (fun m =>
    hasSubList ((wordsOf m).filter (fun w => w ≠ "")) ws)

/-- `not chunk.metadata.get("is_default_doc", False)` — the document-class
test used throughout `_hybrid_retrieve` and `format_docs_with_citations`. -/
def isPersonal (c : Chunk) : Bool := !(c.metadata.is_default_doc.getD false)

/-- `doc_id = f"{chunk.metadata.get('source', '')}_{chunk.page_content[:50]}"`. -/
def docId (c : Chunk) : String :=
  (c.metadata.source.getD "") ++ "_" ++ String.mk (c.page_content.data.take 50)

def PERSONAL_POLICY_BOOST : ℚ := 1.5

/-- `boost = PERSONAL_POLICY_BOOST if (prefer_personal and is_personal)
else 1.0`. -/
def boostFactor (prefer_personal is_personal : Bool) : ℚ :=
  if prefer_personal && is_personal then PERSONAL_POLICY_BOOST else 1

/-- The metadata filter of the BM25 loop in `_hybrid_retrieve`: an empty
option (or empty string, falsy in Python) disables the corresponding test;
`policy_type` compares lowercased, `policy_number` compares exactly
(an absent key is `None`, which never equals the requested string). -/
def passesFilter (policy_type policy_number : Option String) (c : Chunk) : Bool :=
  (match policy_type with
   | none => true
   | some t =>
     if t = "" then true
     else pyLower (c.metadata.policy_type.getD "") == pyLower t) &&
  (match policy_number with
   | none => true
   | some n =>
     if n = "" then true
     else match c.metadata.policy_number with
       | none => false
       | some m => m == n)

/-- One value of the `doc_scores` dict in `_hybrid_retrieve`. -/
structure DocEntry where
  doc : Chunk
  score : ℚ
  is_personal : Bool
deriving DecidableEq, Repr

/-- The `doc_scores` dict: string keys, insertion-ordered. -/
abbrev ScoreDict := List (String × DocEntry)

def containsKey (d : ScoreDict) (k : String) : Bool := d.any (fun p => p.1 == k)

/-- Python dict assignment `d[k] = v`: overwrite in place, or append. -/
def dictSet (d : ScoreDict) (k : String) (v : DocEntry) : ScoreDict :=
  if containsKey d k then d.map (fun p => if p.1 == k then (k, v) else p)
  else d ++ [(k, v)]

def dictGet? (d : ScoreDict) (k : String) : Option DocEntry :=
  (d.find? (fun p => p.1 == k)).map (fun p => p.2)

def dictValues (d : ScoreDict) : List DocEntry := d.map (fun p => p.2)

/-- Multiplying an entry's fused score by the boost its own class would
receive under `prefer_personal = true`; used to state that running fusion
with the personal preference on is exactly a per-class rescaling of the
scores computed without it (claim C3). -/
def scaleEntry (e : DocEntry) : DocEntry :=
  { e with score := e.score * (if e.is_personal then PERSONAL_POLICY_BOOST else 1) }

def scaleDict (d : ScoreDict) : ScoreDict :=
  d.map (fun p => (p.1, scaleEntry p.2))

/-- Writing the fused score and personal flag back into a chunk's metadata
(`doc.metadata["relevance_score"] = ...`,
`doc.metadata["is_personal_policy"] = ...`). -/
def updateChunk (c : Chunk) (score : ℚ) (pers : Bool) : Chunk :=
  { c with metadata :=
      { c.metadata with relevance_score := some score, is_personal_policy := some pers } }

/-- `max_bm25 = max(bm25_scores) if max(bm25_scores) > 0 else 1`; `none`
models the `ValueError` of `max` on an empty score list. -/
def bm25Divisor (scores : List ℚ) : Option ℚ :=
  (pyMax scores).map (fun m => if 0 < m then m else 1)

/-- `bm25_top_indices`: indices of the score array sorted by score
descending (Python's stable sort), truncated to `k*2`; each index is
paired here with its chunk and score. -/
def bm25Candidates (bm25Data : List (Chunk × ℚ)) (k : ℕ) :
    List (ℕ × Chunk × ℚ) :=
  (bm25Data.enum.insertionSort (fun a b => b.2.2 ≤ a.2.2)).take (k * 2)

/-- Body of the BM25 loop of `_hybrid_retrieve`: filter, normalize, weight,
boost, and assign into `doc_scores`. -/
def bm25Step (policy_type policy_number : Option String)
    (prefer_personal : Bool) (max_bm25 : ℚ) (d : ScoreDict)
    (p : ℕ × Chunk × ℚ) : ScoreDict :=
  let chunk := p.2.1
  if !(passesFilter policy_type policy_number chunk) then d
  else
    let normalized_bm25 := p.2.2 / max_bm25
    let base_score := BM25_WEIGHT * normalized_bm25
    let is_pers := isPersonal chunk
    let boost := boostFactor prefer_personal is_pers
    dictSet d (docId chunk)
      { doc := chunk, score := base_score * boost, is_personal := is_pers }

/-- Body of the semantic loop of `_hybrid_retrieve`: a flat
`SEMANTIC_WEIGHT * 1.0 * boost` contribution, added onto an existing entry
for the same identity or inserted fresh. -/
def semStep (prefer_personal : Bool) (d : ScoreDict) (doc : Chunk) : ScoreDict :=
  let doc_id := docId doc
  let is_pers := isPersonal doc
  let boost := boostFactor prefer_personal is_pers
  let semantic_score := SEMANTIC_WEIGHT * 1 * boost
  match dictGet? d doc_id with
  | some e => dictSet d doc_id { e with score := e.score + semantic_score }
  | none => dictSet d doc_id { doc := doc, score := semantic_score, is_personal := is_pers }

/-- The fully built `doc_scores` dict of `_hybrid_retrieve`. -/
def docScores (bm25Data : List (Chunk × ℚ)) (semanticDocs : List Chunk)
    (k : ℕ) (policy_type policy_number : Option String)
    (prefer_personal : Bool) (max_bm25 : ℚ) : ScoreDict :=
  let d1 := (bm25Candidates bm25Data k).foldl
    (bm25Step policy_type policy_number prefer_personal max_bm25) []
  semanticDocs.foldl (semStep prefer_personal) d1

/-- `_hybrid_retrieve` from `app/rag_pipeline.py`.  `bm25Data` pairs each
chunk of the pickled BM25 corpus with its `get_scores` value for the query
(an external collaborator); `semanticDocs` is the result of
`_semantic_retrieve(query, k*2, ...)` (an external collaborator).  `none`
models the uncaught `ValueError` of `max` on an empty corpus. -/
def _hybrid_retrieve (bm25Data : List (Chunk × ℚ)) (semanticDocs : List Chunk)
    (k : ℕ) (policy_type policy_number : Option String)
    (prefer_personal : Bool) : Option (List Chunk) :=
  match bm25Divisor (bm25Data.map (fun p => p.2)) with
  | none => none
  | some max_bm25 =>
    let d := docScores bm25Data semanticDocs k policy_type policy_number
      prefer_personal max_bm25
    let sorted_docs :=
      ((dictValues d).insertionSort (fun a b => b.score ≤ a.score)).take k
    some (sorted_docs.map (fun e => updateChunk e.doc e.score e.is_personal))

/-- `retrieve_with_metadata_filter` from `app/rag_pipeline.py`.
`bm25IndexExists` models `os.path.exists(BM25_INDEX_PATH)`;
`semanticSearch n` models `_semantic_retrieve(query, n, policy_type,
policy_number)` (the vector-index collaborator, already filtered). -/
def retrieve_with_metadata_filter (bm25IndexExists : Bool)
    (bm25Data : List (Chunk × ℚ)) (semanticSearch : ℕ → List Chunk)
    (query : String) (k : ℕ) (policy_type policy_number : Option String)
    (prefer_personal : Option Bool) : Option (List Chunk) :=
  let pp :=
    match prefer_personal with
    | none => detect_personal_query_intent query
    | some b => b
  if HYBRID_SEARCH_ENABLED && bm25IndexExists then
    _hybrid_retrieve bm25Data (semanticSearch (k * 2)) k policy_type policy_number pp
  else
    some (semanticSearch k)

/-! ## `format_docs_with_citations` (`app/rag_pipeline.py`) -/

/-- `[doc for doc in docs if not doc.metadata.get("is_default_doc", False)]`. -/
def personalDocsOf (docs : List Chunk) : List Chunk :=
  docs.filter (fun doc => !(doc.metadata.is_default_doc.getD false))

/-- `[doc for doc in docs if doc.metadata.get("is_default_doc", False)]`. -/
def defaultDocsOf (docs : List Chunk) : List Chunk :=
  docs.filter (fun doc => doc.metadata.is_default_doc.getD false)

/-- The page part of a citation: absent key → falsy `""` → omitted; an int
renders as `Page n`; an empty string is falsy and omitted. -/
def pageCitation (p : Option PageV) : Option String :=
  match p with
  | none => none
  | some (PageV.int n) => some ("Page " ++ toString n)
  | some (PageV.str s) => if s = "" then none else some s

def optPart (s : String) : List String := if s = "" then [] else [s]

/-- One formatted block of the personal-policy section. -/
def personalBlock (i : ℕ) (doc : Chunk) : String :=
  let source := doc.metadata.source.getD "Unknown"
  let sec := doc.metadata.docSection.getD ""
  let policy_type := doc.metadata.policy_type.getD ""
  let policy_number := doc.metadata.policy_number.getD ""
  let citation_parts :=
    ["[PERSONAL POLICY | Source: " ++ source] ++
      (if policy_number ≠ "" then ["Policy #: " ++ policy_number] else []) ++
      (if policy_type ≠ "" then ["Type: " ++ policy_type] else []) ++
      optPart sec ++
      ((pageCitation doc.metadata.page).map (fun s => [s])).getD []
  let citation := String.intercalate ", " citation_parts ++ "]"
  "\n--- Personal Policy Document " ++ toString i ++ " " ++ citation ++
    " ---\n" ++ doc.page_content

/-- One formatted block of the general-guides section. -/
def generalBlock (i : ℕ) (doc : Chunk) : String :=
  let source := doc.metadata.source.getD "Unknown"
  let sec := doc.metadata.docSection.getD ""
  let policy_type := doc.metadata.policy_type.getD ""
  let citation_parts :=
    ["[GENERAL GUIDE | Source: " ++ source] ++
      (if policy_type ≠ "" then ["Type: " ++ policy_type] else []) ++
      optPart sec ++
      ((pageCitation doc.metadata.page).map (fun s => [s])).getD []
  let citation := String.intercalate ", " citation_parts ++ "]"
  "\n--- General Guide " ++ toString i ++ " " ++ citation ++ " ---\n" ++
    doc.page_content

def eqRow : String := String.mk (List.replicate 80 '=')

/-- `format_docs_with_citations(docs)`: personal policies first, general
guides second, joined with blank lines. -/
def format_docs_with_citations (docs : List Chunk) : String :=
  let personal_docs := personalDocsOf docs
  let default_docs := defaultDocsOf docs
  let pParts :=
    if personal_docs.isEmpty then ([] : List String)
    else
      [eqRow, "📄 PERSONAL POLICY DOCUMENTS (User's Actual Coverage)", eqRow] ++
        personal_docs.enum.map (fun p => personalBlock (p.1 + 1) p.2)
  let dParts :=
    if default_docs.isEmpty then ([] : List String)
    else
      ["\n" ++ eqRow, "📚 GENERAL INSURANCE GUIDES (Educational Reference Only)", eqRow] ++
        default_docs.enum.map (fun p => generalBlock (p.1 + 1) p.2)
  String.intercalate "\n\n" (pParts ++ dParts)

/-! ## Concrete data used by witnesses and counterexamples -/

/-- A chunk whose relevance score is below the threshold. -/
def lowDoc : Chunk :=
  { page_content := "policy text", metadata := { relevance_score := some 0.3 } }

/-- Two distinct chunks with the same `(source, content-prefix)` identity. -/
def dupA : Chunk :=
  { page_content := "same prefix", metadata := { source := some "s", docSection := some "A" } }

def dupB : Chunk :=
  { page_content := "same prefix", metadata := { source := some "s", docSection := some "B" } }

/-- A general-class and a personal-class chunk (used with BM25 score 0). -/
def genZero : Chunk :=
  { page_content := "g", metadata := { source := some "g", is_default_doc := some true } }

def persZero : Chunk :=
  { page_content := "p", metadata := { source := some "p", is_default_doc := some false } }

/-- A chunk failing a `policy_type = "home"` filter, with the top BM25 score. -/
def failDoc : Chunk :=
  { page_content := "f", metadata := { source := some "f", policy_type := some "auto" } }

/-- A chunk passing a `policy_type = "home"` filter. -/
def okDoc : Chunk :=
  { page_content := "ok", metadata := { source := some "ok", policy_type := some "home" } }

/-- A chunk whose metadata record lacks the `is_default_doc` key. -/
def noFlagDoc : Chunk :=
  { page_content := "n", metadata := { source := some "n" } }

/-! # Theorems -/

/-! ## Generic lemmas -/

lemma prefixAt_iff_isPrefix {α : Type} [DecidableEq α] (n h : List α) :
    prefixAt (α := α) n h = true ↔ n <+: h := by
  induction n generalizing h with
  | nil => simp [prefixAt]
  | cons a as ih =>
    cases h with
    | nil => simp [prefixAt]
    | cons b bs =>
      simp only [prefixAt, Bool.and_eq_true, beq_iff_eq, ih, List.cons_prefix_cons]

lemma hasSubList_iff_infix {α : Type} [DecidableEq α] (n h : List α) :
    hasSubList (α := α) n h = true ↔ n <:+: h := by
  induction h with
  | nil =>
    simp only [hasSubList, prefixAt_iff_isPrefix, List.prefix_nil, List.infix_nil]
  | cons b bs ih =>
    simp only [hasSubList, Bool.or_eq_true, prefixAt_iff_isPrefix, ih,
      List.infix_cons_iff]

lemma foldl_invariant {α β : Type} (P : β → Prop) (f : β → α → β) :
    ∀ (l : List α) (b : β), P b → (∀ b' a, a ∈ l → P b' → P (f b' a)) →
      P (l.foldl f b) := by
  intro l
  induction l with
  | nil => intro b hb _; exact hb
  | cons a as ih =>
    intro b hb hf
    exact ih (f b a) (hf b a (List.mem_cons_self a as) hb)
      (fun b' x hx => hf b' x (List.mem_cons_of_mem a hx))

lemma foldl_flag_append {α β : Type} (p : α → Bool) (f : α → β) :
    ∀ (l : List α) (init : List β),
      l.foldl (fun acc x => if p x then acc else acc ++ [f x]) init =
        init ++ (l.filter (fun x => !p x)).map f := by
  intro l
  induction l with
  | nil => intro init; simp
  | cons a as ih =>
    intro init
    by_cases hp : p a = true
    · simp [List.foldl_cons, hp, ih]
    · simp only [Bool.not_eq_true] at hp
      simp [List.foldl_cons, hp, ih, List.append_assoc]

lemma option_eq_some_getD {α : Type} (o : Option α) (d : α)
    (h : o.isSome = true) : o = some (o.getD d) := by
  cases o with
  | none => simp at h
  | some a => rfl

/-! ## Dict and fusion lemmas -/

lemma mem_dictSet {d : ScoreDict} {k : String} {v : DocEntry} :
    ∀ p ∈ dictSet d k v, p = (k, v) ∨ p ∈ d := by
  intro p hp
  unfold dictSet at hp
  split at hp
  · rw [List.mem_map] at hp
    obtain ⟨q, hq, rfl⟩ := hp
    split
    · left; rfl
    · right; exact hq
  · rcases List.mem_append.mp hp with h | h
    · right; exact h
    · left; exact List.mem_singleton.mp h

lemma keys_dictSet_contains {d : ScoreDict} {k : String} {v : DocEntry}
    (h : containsKey d k = true) :
    (dictSet d k v).map Prod.fst = d.map Prod.fst := by
  unfold dictSet
  rw [if_pos h, List.map_map]
  apply List.map_congr_left
  intro p _
  simp only [Function.comp]
  by_cases hb : (p.1 == k) = true
  · rw [if_pos hb]
    exact (eq_of_beq hb).symm
  · rw [if_neg hb]

lemma keys_dictSet_fresh {d : ScoreDict} {k : String} {v : DocEntry}
    (h : containsKey d k = false) :
    (dictSet d k v).map Prod.fst = d.map Prod.fst ++ [k] := by
  unfold dictSet
  rw [if_neg (by simp [h]), List.map_append]
  rfl

lemma not_mem_keys_of_not_contains {d : ScoreDict} {k : String}
    (h : containsKey d k = false) : k ∉ d.map Prod.fst := by
  intro hk
  rw [List.mem_map] at hk
  obtain ⟨p, hp, rfl⟩ := hk
  simp only [containsKey, List.any_eq_false] at h
  exact absurd (beq_self_eq_true p.1) (by simpa using h p hp)

lemma nodup_keys_dictSet {d : ScoreDict} {k : String} {v : DocEntry}
    (h : (d.map Prod.fst).Nodup) :
    ((dictSet d k v).map Prod.fst).Nodup := by
  cases hck : containsKey d k with
  | true => rw [keys_dictSet_contains hck]; exact h
  | false =>
    rw [keys_dictSet_fresh hck, List.nodup_append]
    refine ⟨h, List.nodup_singleton _, ?_⟩
    intro a ha hb
    rw [List.mem_singleton] at hb
    subst hb
    exact not_mem_keys_of_not_contains hck ha

lemma dictGet?_mem {d : ScoreDict} {k : String} {e : DocEntry}
    (h : dictGet? d k = some e) : (k, e) ∈ d := by
  unfold dictGet? at h
  cases hf : d.find? (fun q => q.1 == k) with
  | none => rw [hf] at h; simp at h
  | some pr =>
    rw [hf] at h
    simp only [Option.map_some'] at h
    have hpr := List.mem_of_find?_eq_some hf
    have hbeq := List.find?_some hf
    simp only [beq_iff_eq] at hbeq
    have hk : pr.1 = k := hbeq
    cases pr with
    | mk a b =>
      simp only at hk h
      subst hk
      injection h with h2
      subst h2
      exact hpr

/-- The invariant maintained by `doc_scores`: every pair's key is the
`doc_id` of its entry's chunk, the stored personal flag is the chunk's
class, and the chunk comes from the BM25 corpus or the semantic results. -/
def entryWF (pool : List Chunk) (p : String × DocEntry) : Prop :=
  p.1 = docId p.2.doc ∧ p.2.is_personal = isPersonal p.2.doc ∧ p.2.doc ∈ pool

lemma bm25Step_entryWF {pool : List Chunk} {pt pn : Option String}
    {prefer : Bool} {maxb : ℚ} {d : ScoreDict} {p : ℕ × Chunk × ℚ}
    (hd : ∀ q ∈ d, entryWF pool q) (hp : p.2.1 ∈ pool) :
    ∀ q ∈ bm25Step pt pn prefer maxb d p, entryWF pool q := by
  intro q hq
  simp only [bm25Step] at hq
  split at hq
  · exact hd q hq
  · rcases mem_dictSet q hq with rfl | h
    · exact ⟨rfl, rfl, hp⟩
    · exact hd q h

lemma semStep_entryWF {pool : List Chunk} {prefer : Bool} {d : ScoreDict}
    {doc : Chunk} (hd : ∀ q ∈ d, entryWF pool q) (hdoc : doc ∈ pool) :
    ∀ q ∈ semStep prefer d doc, entryWF pool q := by
  intro q hq
  simp only [semStep] at hq
  cases hg : dictGet? d (docId doc) with
  | some e =>
    simp only [hg] at hq
    obtain ⟨hk, hpers, hmem⟩ := hd (docId doc, e) (dictGet?_mem hg)
    rcases mem_dictSet q hq with rfl | h
    · exact ⟨hk, hpers, hmem⟩
    · exact hd q h
  | none =>
    simp only [hg] at hq
    rcases mem_dictSet q hq with rfl | h
    · exact ⟨rfl, rfl, hdoc⟩
    · exact hd q h

lemma bm25Candidates_mem {bm25Data : List (Chunk × ℚ)} {k : ℕ}
    {p : ℕ × Chunk × ℚ} (hp : p ∈ bm25Candidates bm25Data k) :
    p.2 ∈ bm25Data := by
  obtain ⟨i, pr⟩ := p
  unfold bm25Candidates at hp
  have h1 : (i, pr) ∈ bm25Data.enum :=
    (List.perm_insertionSort _ _).subset ((List.take_sublist _ _).subset hp)
  have h2 := List.mem_enum h1
  show pr ∈ bm25Data
  rw [h2.2]
  exact List.getElem_mem h2.1

lemma docScores_entryWF (bm25Data : List (Chunk × ℚ)) (semanticDocs : List Chunk)
    (k : ℕ) (pt pn : Option String) (prefer : Bool) (maxb : ℚ) :
    ∀ q ∈ docScores bm25Data semanticDocs k pt pn prefer maxb,
      entryWF (bm25Data.map Prod.fst ++ semanticDocs) q := by
  unfold docScores
  refine foldl_invariant
    (fun d => ∀ q ∈ d, entryWF (bm25Data.map Prod.fst ++ semanticDocs) q)
    (semStep prefer) semanticDocs _ ?_ ?_
  · refine foldl_invariant
      (fun d => ∀ q ∈ d, entryWF (bm25Data.map Prod.fst ++ semanticDocs) q)
      (bm25Step pt pn prefer maxb) (bm25Candidates bm25Data k) [] ?_ ?_
    · intro q hq; exact absurd hq (List.not_mem_nil q)
    · intro d p hp hd
      refine bm25Step_entryWF hd (List.mem_append_left _ ?_)
      exact List.mem_map.mpr ⟨p.2, bm25Candidates_mem hp, rfl⟩
  · intro d doc hdoc hd
    exact semStep_entryWF hd (List.mem_append_right _ hdoc)

lemma docScores_keys_nodup (bm25Data : List (Chunk × ℚ)) (semanticDocs : List Chunk)
    (k : ℕ) (pt pn : Option String) (prefer : Bool) (maxb : ℚ) :
    ((docScores bm25Data semanticDocs k pt pn prefer maxb).map Prod.fst).Nodup := by
  unfold docScores
  refine foldl_invariant (fun d => (d.map Prod.fst).Nodup)
    (semStep prefer) semanticDocs _ ?_ ?_
  · refine foldl_invariant (fun d => (d.map Prod.fst).Nodup)
      (bm25Step pt pn prefer maxb) (bm25Candidates bm25Data k) [] ?_ ?_
    · simp
    · intro d p _ hd
      simp only [bm25Step]
      split
      · exact hd
      · exact nodup_keys_dictSet hd
  · intro d doc _ hd
    simp only [semStep]
    cases hg : dictGet? d (docId doc) with
    | some e => exact nodup_keys_dictSet hd
    | none => exact nodup_keys_dictSet hd

lemma docScores_filterInv (bm25Data : List (Chunk × ℚ)) (semanticDocs : List Chunk)
    (k : ℕ) (pt pn : Option String) (prefer : Bool) (maxb : ℚ)
    (hsem : ∀ doc ∈ semanticDocs, passesFilter pt pn doc = true) :
    ∀ q ∈ docScores bm25Data semanticDocs k pt pn prefer maxb,
      passesFilter pt pn q.2.doc = true := by
  unfold docScores
  refine foldl_invariant (fun d => ∀ q ∈ d, passesFilter pt pn q.2.doc = true)
    (semStep prefer) semanticDocs _ ?_ ?_
  · refine foldl_invariant (fun d => ∀ q ∈ d, passesFilter pt pn q.2.doc = true)
      (bm25Step pt pn prefer maxb) (bm25Candidates bm25Data k) [] ?_ ?_
    · intro q hq; exact absurd hq (List.not_mem_nil q)
    · intro d p _ hd
      intro q hq
      simp only [bm25Step] at hq
      split at hq
      · exact hd q hq
      · rename_i hcond
        rcases mem_dictSet q hq with rfl | h
        · simpa using hcond
        · exact hd q h
  · intro d doc hdoc hd
    intro q hq
    simp only [semStep] at hq
    cases hg : dictGet? d (docId doc) with
    | some e =>
      simp only [hg] at hq
      rcases mem_dictSet q hq with rfl | h
      · exact hd (docId doc, e) (dictGet?_mem hg)
      · exact hd q h
    | none =>
      simp only [hg] at hq
      rcases mem_dictSet q hq with rfl | h
      · exact hsem doc hdoc
      · exact hd q h

lemma docId_updateChunk (c : Chunk) (s : ℚ) (b : Bool) :
    docId (updateChunk c s b) = docId c := rfl

lemma passesFilter_updateChunk (pt pn : Option String) (c : Chunk) (s : ℚ) (b : Bool) :
    passesFilter pt pn (updateChunk c s b) = passesFilter pt pn c := rfl

lemma hybrid_eq {bm25Data : List (Chunk × ℚ)} {semanticDocs : List Chunk}
    {k : ℕ} {pt pn : Option String} {prefer : Bool} {res : List Chunk}
    (h : _hybrid_retrieve bm25Data semanticDocs k pt pn prefer = some res) :
    ∃ maxd, bm25Divisor (bm25Data.map (fun p => p.2)) = some maxd ∧
      res = (((dictValues (docScores bm25Data semanticDocs k pt pn prefer maxd)).insertionSort
          (fun a b => b.score ≤ a.score)).take k).map
        (fun e => updateChunk e.doc e.score e.is_personal) := by
  unfold _hybrid_retrieve at h
  cases hd : bm25Divisor (bm25Data.map fun p => p.2) with
  | none => rw [hd] at h; cases h
  | some m =>
    rw [hd] at h
    exact ⟨m, rfl, (Option.some.inj h).symm⟩

lemma hybrid_mem {bm25Data : List (Chunk × ℚ)} {semanticDocs : List Chunk}
    {k : ℕ} {pt pn : Option String} {prefer : Bool} {res : List Chunk} {x : Chunk}
    (h : _hybrid_retrieve bm25Data semanticDocs k pt pn prefer = some res)
    (hx : x ∈ res) :
    ∃ maxd q, bm25Divisor (bm25Data.map (fun p => p.2)) = some maxd ∧
      q ∈ docScores bm25Data semanticDocs k pt pn prefer maxd ∧
      x = updateChunk q.2.doc q.2.score q.2.is_personal := by
  obtain ⟨maxd, hmax, rfl⟩ := hybrid_eq h
  rw [List.mem_map] at hx
  obtain ⟨e, he, rfl⟩ := hx
  have h1 : e ∈ dictValues (docScores bm25Data semanticDocs k pt pn prefer maxd) :=
    (List.perm_insertionSort _ _).subset ((List.take_sublist _ _).subset he)
  rw [dictValues, List.mem_map] at h1
  obtain ⟨q, hq, rfl⟩ := h1
  exact ⟨maxd, q, hmax, hq, rfl⟩

/-! ## Claim C1 -/

/-- C1 counterexample: for the empty chunk list the gate's reason is the
fixed sentence "No relevant policy documents found. Please ensure documents
have been ingested.", which is not the claimed string "no relevant
documents" (nor contains it). -/
theorem C1_counterexample :
    should_answer_question [] (check_retrieval_quality []) ≠
        (false, "no relevant documents") ∧
    hasSubList "no relevant documents".data
        (should_answer_question [] (check_retrieval_quality [])).2.data = false := by
  constructor
  · decide
  · decide

/-- C1 (amended): the gate refuses exactly when the chunk list is empty or
the mean relevance (0 for a scoreless chunk) is strictly below
`MIN_RELEVANCE_SCORE`; the empty-list reason is the fixed
"No relevant policy documents found..." sentence; the low-relevance reason
contains the rendered average score; a mean exactly at the threshold
answers. -/
theorem C1_quality_gate (docs : List Chunk) :
    ((should_answer_question docs (check_retrieval_quality docs)).1 = false ↔
      docs = [] ∨ avgRelevance docs < MIN_RELEVANCE_SCORE) ∧
    (docs = [] →
      (should_answer_question docs (check_retrieval_quality docs)).2 =
        "No relevant policy documents found. Please ensure documents have been ingested.") ∧
    (docs ≠ [] → avgRelevance docs < MIN_RELEVANCE_SCORE →
      hasSubList (fmt2 (avgRelevance docs)).data
        (should_answer_question docs (check_retrieval_quality docs)).2.data = true) ∧
    (docs ≠ [] → avgRelevance docs = MIN_RELEVANCE_SCORE →
      (should_answer_question docs (check_retrieval_quality docs)).1 = true) := by
  cases docs with
  | nil =>
    refine ⟨by simp [should_answer_question, check_retrieval_quality], fun _ => rfl,
      fun h => absurd rfl h, fun h => absurd rfl h⟩
  | cons a l =>
    by_cases hlt : avgRelevance (a :: l) < MIN_RELEVANCE_SCORE
    · refine ⟨?_, ?_, ?_, ?_⟩
      · simp [should_answer_question, check_retrieval_quality, hlt]
      · intro h; exact absurd h (by simp)
      · intro _ _
        have hgate : (should_answer_question (a :: l)
            (check_retrieval_quality (a :: l))).2 =
            "Insufficient context to provide a reliable answer. " ++
              ("Retrieved documents have low relevance (score: " ++
                fmt2 (avgRelevance (a :: l)) ++
                  "). The answer may not be reliable.") := by
          simp [should_answer_question, check_retrieval_quality, hlt]
        rw [hgate, hasSubList_iff_infix]
        refine ⟨("Insufficient context to provide a reliable answer. " ++
          "Retrieved documents have low relevance (score: ").data,
          "). The answer may not be reliable.".data, ?_⟩
        simp [String.data_append]
      · intro _ heq
        rw [heq] at hlt
        exact absurd hlt (lt_irrefl _)
    · refine ⟨?_, ?_, ?_, ?_⟩
      · simp only [should_answer_question, check_retrieval_quality]
        simp [hlt]
      · intro h; exact absurd h (by simp)
      · intro _ h; exact absurd h hlt
      · intro _ _
        simp [should_answer_question, check_retrieval_quality, hlt]

/-- C1 witness: a single chunk scored 0.3 trips the low-relevance refusal
and the reason embeds the rendered average. -/
theorem C1_witness :
    hasSubList (fmt2 (avgRelevance [lowDoc])).data
      (should_answer_question [lowDoc] (check_retrieval_quality [lowDoc])).2.data = true :=
  (C1_quality_gate [lowDoc]).2.2.1 (by simp)
    (by norm_num [avgRelevance, lowDoc, MIN_RELEVANCE_SCORE])

/-! ## Claim C5 -/

/-- C5: `check_for_hallucinated_numbers` flags exactly the extracted
currency and policy-number tokens that do not occur verbatim in the
context, returns `[]` iff every extracted token occurs in the context, and
behaves as specified on the two concrete examples. -/
theorem C5_hallucinated_numbers (answer context : String) :
    check_for_hallucinated_numbers answer context =
      ((extractAmounts answer).filter (fun t => !(pyContains t context))).map
          (fun t => "Amount " ++ t ++ " not found in policy documents") ++
        ((extractPolicyNums answer).filter (fun t => !(pyContains t context))).map
          (fun t => "Policy number " ++ t ++ " not found in documents") ∧
    (check_for_hallucinated_numbers answer context = [] ↔
      (∀ t ∈ extractAmounts answer, pyContains t context = true) ∧
        (∀ t ∈ extractPolicyNums answer, pyContains t context = true)) ∧
    check_for_hallucinated_numbers "The deductible is $5,000"
        "The deductible is $2,500" =
      ["Amount $5,000 not found in policy documents"] ∧
    pyContains "$5,000" "Amount $5,000 not found in policy documents" = true ∧
    check_for_hallucinated_numbers "The deductible is $2,500"
        "The deductible is $2,500 for all covered losses" = [] := by
  have key : check_for_hallucinated_numbers answer context =
      ((extractAmounts answer).filter (fun t => !(pyContains t context))).map
          (fun t => "Amount " ++ t ++ " not found in policy documents") ++
        ((extractPolicyNums answer).filter (fun t => !(pyContains t context))).map
          (fun t => "Policy number " ++ t ++ " not found in documents") := by
    unfold check_for_hallucinated_numbers
    rw [foldl_flag_append, foldl_flag_append]
    simp
  refine ⟨key, ?_, by decide, by decide, by decide⟩
  rw [key]
  simp only [List.append_eq_nil, List.map_eq_nil_iff, List.filter_eq_nil_iff,
    Bool.not_eq_true', Bool.not_eq_false]

/-! ## Claim C6 -/

/-- C6: on a collaborator error the faithfulness check fails open with
`(true, 0.5, explanation noting the error)`; when the FAITHFUL field parses
but the confidence field yields no float, the confidence defaults to 0.7
if faithful else 0.3. -/
theorem C6_faithfulness_fallbacks :
    (∀ e : String, validate_response_faithfulness (Except.error e) =
      (true, 0.5, "Validation error: " ++ e)) ∧
    (∀ result seg, (pySplitOn result "FAITHFUL:").get? 1 = some seg →
      (∀ cseg, (pySplitOn result "CONFIDENCE:").get? 1 = some cseg →
        pyFloat? (pyStrip ((pySplitOn cseg "\n").headD "")) = none) →
      (validate_response_faithfulness (Except.ok result)).2.1 =
        if (validate_response_faithfulness (Except.ok result)).1 then (0.7 : ℚ)
        else 0.3) := by
  constructor
  · intro e; rfl
  · intro result seg hseg hconf
    simp only [validate_response_faithfulness, ENABLE_FAITHFULNESS_CHECK]
    rw [hseg]
    cases hc : (pySplitOn result "CONFIDENCE:").get? 1 with
    | none => simp
    | some cseg =>
      have h2 := hconf cseg hc
      simp at h2 ⊢
      simp [h2]

/-- C6 witness: a response whose confidence field reads "high" (no float)
defaults according to the parsed FAITHFUL field. -/
theorem C6_witness :
    (validate_response_faithfulness
        (Except.ok "FAITHFUL: YES\nCONFIDENCE: high\nEXPLANATION: fine")).2.1 =
      if (validate_response_faithfulness
          (Except.ok "FAITHFUL: YES\nCONFIDENCE: high\nEXPLANATION: fine")).1
        then (0.7 : ℚ) else 0.3 := by
  refine C6_faithfulness_fallbacks.2
    "FAITHFUL: YES\nCONFIDENCE: high\nEXPLANATION: fine"
    " YES\nCONFIDENCE: high\nEXPLANATION: fine" (by decide) ?_
  intro cseg hc
  have hval : (pySplitOn "FAITHFUL: YES\nCONFIDENCE: high\nEXPLANATION: fine"
      "CONFIDENCE:").get? 1 = some " high\nEXPLANATION: fine" := by decide
  rw [hval] at hc
  cases hc
  decide

/-! ## Claim C7 -/

/-- C7 counterexample: the query "my" contains the marker "my" as a whole
word, but the classifier returns `false` (its indicator "my " requires a
trailing space, and the test is substring membership, not whole-word
matching). -/
theorem C7_counterexample :
    specWholeWordIntent "my" = true ∧
      detect_personal_query_intent "my" = false := by
  constructor
  · decide
  · decide

/-- C7 (amended): the classifier returns true iff the lowercased query
contains one of the fixed indicator strings as a substring (several
indicators carry a trailing space, so this is not whole-word matching);
and `retrieve_with_metadata_filter` with `prefer_personal` omitted behaves
exactly as if `detect_personal_query_intent(query)` had been passed. -/
theorem C7_intent_substring :
    (∀ q : String, detect_personal_query_intent q = true ↔
      ∃ ind ∈ personal_indicators, ind.data <:+: (pyLower q).data) ∧
    (∀ (bm25IndexExists : Bool) (bm25Data : List (Chunk × ℚ))
        (semanticSearch : ℕ → List Chunk) (q : String) (k : ℕ)
        (pt pn : Option String),
      retrieve_with_metadata_filter bm25IndexExists bm25Data semanticSearch
          q k pt pn none =
        retrieve_with_metadata_filter bm25IndexExists bm25Data semanticSearch
          q k pt pn (some (detect_personal_query_intent q))) := by
  constructor
  · intro q
    simp only [detect_personal_query_intent, List.any_eq_true, pyContains,
      hasSubList_iff_infix]
  · intro _ _ _ _ _ _ _
    rfl

/-! ## Claim C2 -/

/-- C2 (amended): the fusion result has length at most `k` and contains no
two entries with the same `(source, first-50-characters)` identity.  (The
"keep highest score per identity" part of the claim fails: a later BM25
candidate with the same identity overwrites an earlier, higher-scored one —
see the counterexample.) -/
theorem C2_fusion_invariants (bm25Data : List (Chunk × ℚ))
    (semanticDocs : List Chunk) (k : ℕ) (pt pn : Option String)
    (prefer : Bool) (res : List Chunk)
    (h : _hybrid_retrieve bm25Data semanticDocs k pt pn prefer = some res) :
    res.length ≤ k ∧ (res.map docId).Nodup := by
  obtain ⟨maxd, hmax, rfl⟩ := hybrid_eq h
  constructor
  · rw [List.length_map, List.length_take]
    exact min_le_left _ _
  · rw [List.map_map]
    rw [List.map_congr_left
      (fun (e : DocEntry) _ =>
        (rfl : (docId ∘ fun e => updateChunk e.doc e.score e.is_personal) e = docId e.doc))]
    refine List.Sublist.nodup (List.Sublist.map _ (List.take_sublist _ _)) ?_
    have hperm := (List.perm_insertionSort (fun a b : DocEntry => b.score ≤ a.score)
      (dictValues (docScores bm25Data semanticDocs k pt pn prefer maxd))).map
      (fun e => docId e.doc)
    refine List.Perm.nodup hperm.symm ?_
    have hval : (dictValues (docScores bm25Data semanticDocs k pt pn prefer maxd)).map
        (fun e => docId e.doc) =
        (docScores bm25Data semanticDocs k pt pn prefer maxd).map Prod.fst := by
      unfold dictValues
      rw [List.map_map]
      apply List.map_congr_left
      intro p hp
      exact ((docScores_entryWF bm25Data semanticDocs k pt pn prefer maxd p hp).1).symm
    rw [hval]
    exact docScores_keys_nodup bm25Data semanticDocs k pt pn prefer maxd

/-- C2 witness: the size and no-duplicate invariants at a concrete input. -/
theorem C2_witness :
    ((_hybrid_retrieve [(dupA, 2), (dupB, 1)] [] 1 none none false).getD []).length ≤ 1 ∧
      (((_hybrid_retrieve [(dupA, 2), (dupB, 1)] [] 1 none none false).getD []).map docId).Nodup := by
  have hdiv : bm25Divisor (([(dupA, 2), (dupB, 1)] : List (Chunk × ℚ)).map (fun p => p.2)) =
      some 2 := by decide
  have hs : (_hybrid_retrieve [(dupA, 2), (dupB, 1)] [] 1 none none false).isSome = true := by
    simp only [_hybrid_retrieve, hdiv]
    rfl
  exact C2_fusion_invariants _ _ _ _ _ _ _ (option_eq_some_getD _ [] hs)

/-- C2 counterexample: `dupA` and `dupB` share an identity; the BM25 loop
processes candidates in descending score order, so the later (lower-scored)
`dupB` candidate overwrites the `dupA` entry: the kept entry carries fused
score 1/4 although the `dupA` candidate for the same identity carried 1/2 —
the kept entry does not carry the highest score for its identity. -/
theorem C2_counterexample :
    _hybrid_retrieve [(dupA, 2), (dupB, 1)] [] 1 none none false =
      some [updateChunk dupB (1/4) true] ∧
    docId dupA = docId dupB ∧
    BM25_WEIGHT * (2 / 2) * boostFactor false (isPersonal dupA) = 1/2 ∧
    ¬ ((1 : ℚ)/2 ≤ 1/4) := by
  refine ⟨?_, by decide, by norm_num [BM25_WEIGHT, boostFactor], by norm_num⟩
  have hA : docId dupA = "s_same prefix" := by decide
  have hB : docId dupB = "s_same prefix" := by decide
  have hpA : passesFilter none none dupA = true := by decide
  have hpB : passesFilter none none dupB = true := by decide
  have hiA : isPersonal dupA = true := by decide
  have hiB : isPersonal dupB = true := by decide
  norm_num [_hybrid_retrieve, bm25Divisor, pyMax, docScores, bm25Candidates, bm25Step, semStep,
    dictSet, dictGet?, dictValues, containsKey, boostFactor,
    List.insertionSort, List.orderedInsert, List.enum, List.enumFrom, List.max?,
    hA, hB, hpA, hpB, hiA, hiB, PERSONAL_POLICY_BOOST, BM25_WEIGHT, SEMANTIC_WEIGHT, updateChunk]

/-! ## Claim C8 -/

/-- C8 (amended): when the semantic collaborator honours the metadata
predicate, every chunk of the fusion output passes the predicate, and a
chunk failing the predicate never appears in the output (it is skipped by
`continue` before entering `doc_scores`, so it is never boosted or counted
in the candidate map).  (The "does not affect the scores of passing chunks"
part of the claim fails: a failing chunk still participates in the
`max(bm25_scores)` normalization — see the counterexample.) -/
theorem C8_filter_exclusion (bm25Data : List (Chunk × ℚ))
    (semanticDocs : List Chunk) (k : ℕ) (pt pn : Option String)
    (prefer : Bool) (res : List Chunk)
    (hsem : ∀ doc ∈ semanticDocs, passesFilter pt pn doc = true)
    (h : _hybrid_retrieve bm25Data semanticDocs k pt pn prefer = some res) :
    (∀ x ∈ res, passesFilter pt pn x = true) ∧
    ∀ c : Chunk, passesFilter pt pn c = false → c ∉ res := by
  have hall : ∀ x ∈ res, passesFilter pt pn x = true := by
    intro x hx
    obtain ⟨maxd, q, hmax, hq, rfl⟩ := hybrid_mem h hx
    rw [passesFilter_updateChunk]
    exact docScores_filterInv bm25Data semanticDocs k pt pn prefer maxd hsem q hq
  refine ⟨hall, ?_⟩
  intro c hc hmem
  rw [hall c hmem] at hc
  cases hc

/-- C8 witness: the filter-failing chunk is absent from the concrete
fusion output. -/
theorem C8_witness :
    failDoc ∉ ((_hybrid_retrieve [(failDoc, 10), (okDoc, 5)] [] 1
      (some "home") none false).getD []) := by
  have hdiv : bm25Divisor (([(failDoc, 10), (okDoc, 5)] : List (Chunk × ℚ)).map
      (fun p => p.2)) = some 10 := by decide
  have hs : (_hybrid_retrieve [(failDoc, 10), (okDoc, 5)] [] 1
      (some "home") none false).isSome = true := by
    simp only [_hybrid_retrieve, hdiv]
    rfl
  exact (C8_filter_exclusion _ _ _ _ _ _ _ (by simp)
    (option_eq_some_getD _ [] hs)).2 failDoc (by decide)

/-- C8 counterexample: the failing chunk (`policy_type = "auto"`, BM25
score 10) never appears in the output, but it sets the normalization
divisor: with it, the passing chunk's fused score is 1/4; without it, 1/2 —
so a filtered-out chunk does affect the scores of the chunks that pass. -/
theorem C8_counterexample :
    _hybrid_retrieve [(failDoc, 10), (okDoc, 5)] [] 1 (some "home") none false =
      some [updateChunk okDoc (1/4) true] ∧
    _hybrid_retrieve [(okDoc, 5)] [] 1 (some "home") none false =
      some [updateChunk okDoc (1/2) true] ∧
    passesFilter (some "home") none failDoc = false ∧
    ((1 : ℚ)/4 ≠ 1/2) := by
  have hpf : passesFilter (some "home") none failDoc = false := by decide
  have hpo : passesFilter (some "home") none okDoc = true := by decide
  have hio : isPersonal okDoc = true := by decide
  have hido : docId okDoc = "ok_ok" := by decide
  refine ⟨?_, ?_, hpf, by norm_num⟩
  · norm_num [_hybrid_retrieve, bm25Divisor, pyMax, docScores, bm25Candidates, bm25Step,
      semStep, dictSet, dictGet?, dictValues, containsKey, boostFactor,
      List.insertionSort, List.orderedInsert, List.enum, List.enumFrom, List.max?,
      hpf, hpo, hio, hido, PERSONAL_POLICY_BOOST, BM25_WEIGHT, SEMANTIC_WEIGHT, updateChunk]
  · norm_num [_hybrid_retrieve, bm25Divisor, pyMax, docScores, bm25Candidates, bm25Step,
      semStep, dictSet, dictGet?, dictValues, containsKey, boostFactor,
      List.insertionSort, List.orderedInsert, List.enum, List.enumFrom, List.max?,
      hpo, hio, hido, PERSONAL_POLICY_BOOST, BM25_WEIGHT, SEMANTIC_WEIGHT, updateChunk]

/-! ## Claim C9 -/

lemma foldl_max_mem (a : ℚ) (l : List ℚ) :
    l.foldl max a = a ∨ l.foldl max a ∈ l := by
  induction l generalizing a with
  | nil => left; rfl
  | cons b bs ih =>
    rcases ih (max a b) with h | h
    · rcases max_choice a b with hm | hm
      · left; rw [List.foldl_cons, h, hm]
      · right; rw [List.foldl_cons, h, hm]; exact List.mem_cons_self _ _
    · right; exact List.mem_cons_of_mem _ h

lemma le_foldl_max (a : ℚ) (l : List ℚ) :
    a ≤ l.foldl max a ∧ ∀ x ∈ l, x ≤ l.foldl max a := by
  induction l generalizing a with
  | nil => exact ⟨le_refl _, by intro x hx; cases hx⟩
  | cons b bs ih =>
    obtain ⟨h1, h2⟩ := ih (max a b)
    refine ⟨le_trans (le_max_left a b) h1, ?_⟩
    intro x hx
    rcases List.mem_cons.mp hx with rfl | hx
    · exact le_trans (le_max_right a x) h1
    · exact h2 x hx

/-- C9: for a nonempty score list with nonnegative scores (the lexical
collaborator's contract: a chunk containing no query token scores 0, the
rest score positively), the divisor used by fusion is defined and positive:
it is the maximum raw score, except that it is 1 when every raw score is
zero; consequently every normalized score `x / dv` lies in `[0, 1]`. -/
theorem C9_normalization (scores : List ℚ) (hne : scores ≠ [])
    (hnn : ∀ x ∈ scores, 0 ≤ x) :
    (bm25Divisor scores).isSome = true ∧
    ∀ dv, bm25Divisor scores = some dv →
      0 < dv ∧ (∀ x ∈ scores, 0 ≤ x / dv ∧ x / dv ≤ 1) ∧
      ((∀ x ∈ scores, x = 0) → dv = 1) ∧
      ((∃ x ∈ scores, x ≠ 0) → pyMax scores = some dv) := by
  cases scores with
  | nil => exact absurd rfl hne
  | cons a as =>
    have hmax : pyMax (a :: as) = some (as.foldl max a) := rfl
    have hdiv : bm25Divisor (a :: as) =
        some (if 0 < as.foldl max a then as.foldl max a else 1) := rfl
    have hmem := foldl_max_mem a as
    have hub := le_foldl_max a as
    have hm_nonneg : 0 ≤ as.foldl max a := by
      rcases hmem with h | h
      · rw [h]; exact hnn a (List.mem_cons_self a as)
      · exact hnn _ (List.mem_cons_of_mem _ h)
    have hub' : ∀ x ∈ a :: as, x ≤ as.foldl max a := by
      intro x hx
      rcases List.mem_cons.mp hx with rfl | hx
      · exact hub.1
      · exact hub.2 x hx
    constructor
    · rw [hdiv]; rfl
    · intro dv hdv
      rw [hdiv] at hdv
      injection hdv with hdv
      by_cases hpos : 0 < as.foldl max a
      · rw [if_pos hpos] at hdv
        subst hdv
        refine ⟨hpos, ?_, ?_, ?_⟩
        · intro x hx
          exact ⟨div_nonneg (hnn x hx) (le_of_lt hpos),
            (div_le_one hpos).mpr (hub' x hx)⟩
        · intro hz
          exfalso
          have h0 : as.foldl max a = 0 := by
            rcases hmem with h | h
            · rw [h]; exact hz a (List.mem_cons_self a as)
            · exact hz _ (List.mem_cons_of_mem _ h)
          rw [h0] at hpos
          exact lt_irrefl _ hpos
        · intro _; exact hmax
      · rw [if_neg hpos] at hdv
        subst hdv
        have hm0 : as.foldl max a = 0 := le_antisymm (not_lt.mp hpos) hm_nonneg
        refine ⟨one_pos, ?_, fun _ => rfl, ?_⟩
        · intro x hx
          have hx0 : x = 0 := le_antisymm (hm0 ▸ hub' x hx) (hnn x hx)
          rw [hx0]
          norm_num
        · rintro ⟨x, hx, hxne⟩
          exact absurd (le_antisymm (hm0 ▸ hub' x hx) (hnn x hx)) hxne

/-- C9 witness: on scores `[0, 2]` the divisor is positive and the
normalized top score lies in `[0, 1]`. -/
theorem C9_witness :
    0 < (2 : ℚ) ∧ (0 ≤ (2 : ℚ) / 2 ∧ (2 : ℚ) / 2 ≤ 1) := by
  have h := C9_normalization [0, 2] (by decide) (by decide)
  have hdv : bm25Divisor [0, 2] = some 2 := by decide
  exact ⟨(h.2 2 hdv).1, (h.2 2 hdv).2.1 2 (by decide)⟩

/-! ## Claim C10 -/

/-- C10: an absent `is_default_doc` key classifies a chunk as personal
everywhere: the class test yields personal, fusion's boost factor (with
`prefer_personal = true`) is the full `PERSONAL_POLICY_BOOST`, every fusion
output chunk lacking the key is marked `is_personal_policy = true`, and
context formatting places such a chunk in the personal-policy partition
(and not in the general-guides partition). -/
theorem C10_missing_class_is_personal :
    (∀ c : Chunk, c.metadata.is_default_doc = none → isPersonal c = true) ∧
    (∀ c : Chunk, c.metadata.is_default_doc = none →
      boostFactor true (isPersonal c) = PERSONAL_POLICY_BOOST) ∧
    (∀ (bm25Data : List (Chunk × ℚ)) (semanticDocs : List Chunk) (k : ℕ)
        (pt pn : Option String) (prefer : Bool) (res : List Chunk),
      _hybrid_retrieve bm25Data semanticDocs k pt pn prefer = some res →
      ∀ x ∈ res, x.metadata.is_default_doc = none →
        x.metadata.is_personal_policy = some true) ∧
    (∀ (c : Chunk) (docs : List Chunk), c.metadata.is_default_doc = none →
      c ∈ docs → c ∈ personalDocsOf docs ∧ c ∉ defaultDocsOf docs) := by
  have h1 : ∀ c : Chunk, c.metadata.is_default_doc = none → isPersonal c = true := by
    intro c hc
    unfold isPersonal
    rw [hc]
    rfl
  refine ⟨h1, ?_, ?_, ?_⟩
  · intro c hc
    rw [boostFactor, h1 c hc]
    rfl
  · intro bm25Data semanticDocs k pt pn prefer res h x hx hnone
    obtain ⟨maxd, q, hmax, hq, rfl⟩ := hybrid_mem h hx
    obtain ⟨_, hpers, _⟩ := docScores_entryWF bm25Data semanticDocs k pt pn prefer maxd q hq
    have hdoc_none : q.2.doc.metadata.is_default_doc = none := hnone
    have hptrue : q.2.is_personal = true := by rw [hpers]; exact h1 _ hdoc_none
    show (updateChunk q.2.doc q.2.score q.2.is_personal).metadata.is_personal_policy = some true
    rw [show (updateChunk q.2.doc q.2.score q.2.is_personal).metadata.is_personal_policy =
      some q.2.is_personal from rfl, hptrue]
  · intro c docs hc hmem
    constructor
    · unfold personalDocsOf
      rw [List.mem_filter]
      refine ⟨hmem, ?_⟩
      rw [hc]
      rfl
    · unfold defaultDocsOf
      intro hmem2
      rw [List.mem_filter, hc] at hmem2
      cases hmem2.2

/-- C10 witness: the flag-less chunk is personal, fully boosted, placed in
the personal partition, and marked `is_personal_policy = true` by fusion. -/
theorem C10_witness :
    isPersonal noFlagDoc = true ∧
    boostFactor true (isPersonal noFlagDoc) = PERSONAL_POLICY_BOOST ∧
    (noFlagDoc ∈ personalDocsOf [noFlagDoc] ∧ noFlagDoc ∉ defaultDocsOf [noFlagDoc]) ∧
    (updateChunk noFlagDoc (3/4) true).metadata.is_personal_policy = some true := by
  have hid : docId noFlagDoc = "n_n" := by decide
  have hp : passesFilter none none noFlagDoc = true := by decide
  have hi : isPersonal noFlagDoc = true := by decide
  have heq : _hybrid_retrieve [(noFlagDoc, 1)] [] 1 none none true =
      some [updateChunk noFlagDoc (3/4) true] := by
    norm_num [_hybrid_retrieve, bm25Divisor, pyMax, docScores, bm25Candidates, bm25Step,
      semStep, dictSet, dictGet?, dictValues, containsKey, boostFactor,
      List.insertionSort, List.orderedInsert, List.enum, List.enumFrom, List.max?,
      hid, hp, hi, PERSONAL_POLICY_BOOST, BM25_WEIGHT, SEMANTIC_WEIGHT, updateChunk]
  exact ⟨C10_missing_class_is_personal.1 noFlagDoc rfl,
    C10_missing_class_is_personal.2.1 noFlagDoc rfl,
    C10_missing_class_is_personal.2.2.2 noFlagDoc [noFlagDoc] rfl (List.mem_singleton.mpr rfl),
    C10_missing_class_is_personal.2.2.1 [(noFlagDoc, 1)] [] 1 none none true _ heq
      (updateChunk noFlagDoc (3/4) true) (List.mem_singleton.mpr rfl) rfl⟩

/-! ## Claim C3 -/

lemma foldl_rel {α β γ : Type} (R : β → γ → Prop) (f : β → α → β) (g : γ → α → γ) :
    ∀ (l : List α) (b : β) (c : γ), R b c →
      (∀ b' c' a, a ∈ l → R b' c' → R (f b' a) (g c' a)) →
      R (l.foldl f b) (l.foldl g c) := by
  intro l
  induction l with
  | nil => intro b c hbc _; exact hbc
  | cons a as ih =>
    intro b c hbc hf
    exact ih (f b a) (g c a) (hf b c a (List.mem_cons_self a as) hbc)
      (fun b' c' x hx => hf b' c' x (List.mem_cons_of_mem a hx))

lemma containsKey_scaleDict (d : ScoreDict) (k : String) :
    containsKey (scaleDict d) k = containsKey d k := by
  unfold containsKey scaleDict
  rw [List.any_map]
  rfl

lemma dictSet_scaleDict (d : ScoreDict) (k : String) (v : DocEntry) :
    dictSet (scaleDict d) k (scaleEntry v) = scaleDict (dictSet d k v) := by
  unfold dictSet
  rw [containsKey_scaleDict]
  by_cases h : containsKey d k = true
  · rw [if_pos h, if_pos h]
    unfold scaleDict
    rw [List.map_map, List.map_map]
    apply List.map_congr_left
    intro p _
    by_cases hb : (p.1 == k) = true <;> simp [Function.comp, hb]
  · rw [if_neg (by simp [h]), if_neg (by simp [h])]
    unfold scaleDict
    rw [List.map_append]
    rfl

lemma dictGet?_scaleDict (d : ScoreDict) (k : String) :
    dictGet? (scaleDict d) k = (dictGet? d k).map scaleEntry := by
  unfold dictGet? scaleDict
  rw [List.find?_map, Option.map_map, Option.map_map]
  rfl

lemma docScores_scale (bm25Data : List (Chunk × ℚ)) (semanticDocs : List Chunk)
    (k : ℕ) (pt pn : Option String) (maxb : ℚ)
    (hcons : ∀ c c', c ∈ bm25Data.map Prod.fst ++ semanticDocs →
      c' ∈ bm25Data.map Prod.fst ++ semanticDocs →
      docId c = docId c' → isPersonal c = isPersonal c') :
    docScores bm25Data semanticDocs k pt pn true maxb =
      scaleDict (docScores bm25Data semanticDocs k pt pn false maxb) := by
  have hbm : ∀ (d : ScoreDict) (p : ℕ × Chunk × ℚ),
      bm25Step pt pn true maxb (scaleDict d) p =
        scaleDict (bm25Step pt pn false maxb d p) := by
    intro d p
    simp only [bm25Step]
    by_cases hf : passesFilter pt pn p.2.1 = true
    · rw [if_neg (by simp [hf]), if_neg (by simp [hf])]
      have hv : DocEntry.mk p.2.1
            (BM25_WEIGHT * (p.2.2 / maxb) * boostFactor true (isPersonal p.2.1))
            (isPersonal p.2.1) =
          scaleEntry (DocEntry.mk p.2.1
            (BM25_WEIGHT * (p.2.2 / maxb) * boostFactor false (isPersonal p.2.1))
            (isPersonal p.2.1)) := by
        cases hp : isPersonal p.2.1 <;> simp [scaleEntry, boostFactor, hp]
      rw [hv, dictSet_scaleDict]
    · rw [if_pos (by simp [hf]), if_pos (by simp [hf])]
  have hsem : ∀ (d : ScoreDict) (doc : Chunk), doc ∈ semanticDocs →
      (∀ q ∈ d, entryWF (bm25Data.map Prod.fst ++ semanticDocs) q) →
      semStep true (scaleDict d) doc = scaleDict (semStep false d doc) := by
    intro d doc hdoc hinv
    simp only [semStep]
    rw [dictGet?_scaleDict]
    cases hg : dictGet? d (docId doc) with
    | none =>
      simp only [Option.map_none']
      have hv : DocEntry.mk doc
            (SEMANTIC_WEIGHT * 1 * boostFactor true (isPersonal doc))
            (isPersonal doc) =
          scaleEntry (DocEntry.mk doc
            (SEMANTIC_WEIGHT * 1 * boostFactor false (isPersonal doc))
            (isPersonal doc)) := by
        cases hp : isPersonal doc <;> simp [scaleEntry, boostFactor, hp]
      rw [hv, dictSet_scaleDict]
    | some e =>
      simp only [Option.map_some']
      obtain ⟨hk, hpers, hmem⟩ := hinv (docId doc, e) (dictGet?_mem hg)
      have hflag : isPersonal doc = e.is_personal := by
        rw [hpers]
        exact hcons doc e.doc (List.mem_append_right _ hdoc) hmem hk
      have hv : DocEntry.mk (scaleEntry e).doc
            ((scaleEntry e).score + SEMANTIC_WEIGHT * 1 * boostFactor true (isPersonal doc))
            (scaleEntry e).is_personal =
          scaleEntry (DocEntry.mk e.doc
            (e.score + SEMANTIC_WEIGHT * 1 * boostFactor false (isPersonal doc))
            e.is_personal) := by
        cases hp : e.is_personal
        · simp [scaleEntry, boostFactor, hflag, hp]
        · simp [scaleEntry, boostFactor, hflag, hp]
          ring
      rw [hv, dictSet_scaleDict]
  unfold docScores
  have hrel := foldl_rel
    (fun b c => b = scaleDict c ∧
      ∀ q ∈ c, entryWF (bm25Data.map Prod.fst ++ semanticDocs) q)
    (semStep true) (semStep false) semanticDocs
    ((bm25Candidates bm25Data k).foldl (bm25Step pt pn true maxb) [])
    ((bm25Candidates bm25Data k).foldl (bm25Step pt pn false maxb) [])
    (foldl_rel
      (fun b c => b = scaleDict c ∧
        ∀ q ∈ c, entryWF (bm25Data.map Prod.fst ++ semanticDocs) q)
      (bm25Step pt pn true maxb) (bm25Step pt pn false maxb)
      (bm25Candidates bm25Data k) [] []
      ⟨rfl, by intro q hq; exact absurd hq (List.not_mem_nil q)⟩
      (by
        intro b c p hp hbc
        obtain ⟨heq, hinv⟩ := hbc
        subst heq
        refine ⟨hbm c p, bm25Step_entryWF hinv (List.mem_append_left _ ?_)⟩
        exact List.mem_map.mpr ⟨p.2, bm25Candidates_mem hp, rfl⟩))
    (by
      intro b c doc hdoc hbc
      obtain ⟨heq, hinv⟩ := hbc
      subst heq
      exact ⟨hsem c doc hdoc hinv, semStep_entryWF hinv (List.mem_append_right _ hdoc)⟩)
  exact hrel.1

lemma hybrid_sorted {bm25Data : List (Chunk × ℚ)} {semanticDocs : List Chunk}
    {k : ℕ} {pt pn : Option String} {prefer : Bool} {res : List Chunk}
    (h : _hybrid_retrieve bm25Data semanticDocs k pt pn prefer = some res) :
    ∀ (i j : ℕ) (hi : i < res.length) (hj : j < res.length), i < j →
      ∀ si sj, (res.get ⟨i, hi⟩).metadata.relevance_score = some si →
        (res.get ⟨j, hj⟩).metadata.relevance_score = some sj → sj ≤ si := by
  obtain ⟨maxd, hmax, rfl⟩ := hybrid_eq h
  intro i j hi hj hij si sj hsi hsj
  haveI htot : IsTotal DocEntry (fun a b => b.score ≤ a.score) :=
    ⟨fun a b => le_total _ _⟩
  haveI htrans : IsTrans DocEntry (fun a b => b.score ≤ a.score) :=
    ⟨fun a b c hab hbc => le_trans hbc hab⟩
  have hsorted := List.sorted_insertionSort (fun a b : DocEntry => b.score ≤ a.score)
    (dictValues (docScores bm25Data semanticDocs k pt pn prefer maxd))
  have hpw : List.Pairwise (fun a b : DocEntry => b.score ≤ a.score)
      (((dictValues (docScores bm25Data semanticDocs k pt pn prefer maxd)).insertionSort
        (fun a b => b.score ≤ a.score)).take k) :=
    List.Pairwise.sublist (List.take_sublist _ _) hsorted
  have hlen : i < (((dictValues (docScores bm25Data semanticDocs k pt pn prefer maxd)).insertionSort
      (fun a b => b.score ≤ a.score)).take k).length := by
    simpa using hi
  have hlen' : j < (((dictValues (docScores bm25Data semanticDocs k pt pn prefer maxd)).insertionSort
      (fun a b => b.score ≤ a.score)).take k).length := by
    simpa using hj
  have hrel := List.pairwise_iff_get.mp hpw ⟨i, hlen⟩ ⟨j, hlen'⟩ hij
  have hgi : (List.map (fun e => updateChunk e.doc e.score e.is_personal)
        (((dictValues (docScores bm25Data semanticDocs k pt pn prefer maxd)).insertionSort
          (fun a b => b.score ≤ a.score)).take k)).get ⟨i, hi⟩ =
      updateChunk ((((dictValues (docScores bm25Data semanticDocs k pt pn prefer maxd)).insertionSort
          (fun a b => b.score ≤ a.score)).take k).get ⟨i, hlen⟩).doc
        ((((dictValues (docScores bm25Data semanticDocs k pt pn prefer maxd)).insertionSort
          (fun a b => b.score ≤ a.score)).take k).get ⟨i, hlen⟩).score
        ((((dictValues (docScores bm25Data semanticDocs k pt pn prefer maxd)).insertionSort
          (fun a b => b.score ≤ a.score)).take k).get ⟨i, hlen⟩).is_personal := by
    simp [List.get_eq_getElem, List.getElem_map]
  have hgj : (List.map (fun e => updateChunk e.doc e.score e.is_personal)
        (((dictValues (docScores bm25Data semanticDocs k pt pn prefer maxd)).insertionSort
          (fun a b => b.score ≤ a.score)).take k)).get ⟨j, hj⟩ =
      updateChunk ((((dictValues (docScores bm25Data semanticDocs k pt pn prefer maxd)).insertionSort
          (fun a b => b.score ≤ a.score)).take k).get ⟨j, hlen'⟩).doc
        ((((dictValues (docScores bm25Data semanticDocs k pt pn prefer maxd)).insertionSort
          (fun a b => b.score ≤ a.score)).take k).get ⟨j, hlen'⟩).score
        ((((dictValues (docScores bm25Data semanticDocs k pt pn prefer maxd)).insertionSort
          (fun a b => b.score ≤ a.score)).take k).get ⟨j, hlen'⟩).is_personal := by
    simp [List.get_eq_getElem, List.getElem_map]
  rw [hgi] at hsi
  rw [hgj] at hsj
  have hsi' := Option.some.inj hsi
  have hsj' := Option.some.inj hsj
  rw [← hsi', ← hsj']
  exact hrel

/-- C3 (amended): the boost constant is 1.5 > 1; with
`prefer_personal = false` every multiplier is 1; with
`prefer_personal = true` the whole fused score map equals the
unboosted one with each entry's score multiplied by 1.5 for personal-class
entries and by 1 for general-class entries (given that chunks sharing an
identity agree on their class); consequently in the ranked output a
personal chunk whose fused score is `1.5·s` precedes a general chunk with
fused score `s` for every pre-boost score `s > 0`.  (At `s = 0` the claim
fails: both fused scores are 0 and the stable sort keeps insertion order —
see the counterexample.) -/
theorem C3_personal_boost :
    (1 : ℚ) < PERSONAL_POLICY_BOOST ∧
    (∀ pers : Bool, boostFactor false pers = 1) ∧
    (∀ (bm25Data : List (Chunk × ℚ)) (semanticDocs : List Chunk) (k : ℕ)
        (pt pn : Option String) (maxb : ℚ),
      (∀ c c', c ∈ bm25Data.map Prod.fst ++ semanticDocs →
        c' ∈ bm25Data.map Prod.fst ++ semanticDocs →
        docId c = docId c' → isPersonal c = isPersonal c') →
      docScores bm25Data semanticDocs k pt pn true maxb =
        scaleDict (docScores bm25Data semanticDocs k pt pn false maxb)) ∧
    (∀ (bm25Data : List (Chunk × ℚ)) (semanticDocs : List Chunk) (k : ℕ)
        (pt pn : Option String) (res : List Chunk),
      _hybrid_retrieve bm25Data semanticDocs k pt pn true = some res →
      ∀ (i j : ℕ) (hi : i < res.length) (hj : j < res.length) (s : ℚ),
        0 < s →
        (res.get ⟨i, hi⟩).metadata.is_personal_policy = some true →
        (res.get ⟨j, hj⟩).metadata.is_personal_policy = some false →
        (res.get ⟨i, hi⟩).metadata.relevance_score =
          some (PERSONAL_POLICY_BOOST * s) →
        (res.get ⟨j, hj⟩).metadata.relevance_score = some s →
        i < j) := by
  refine ⟨by norm_num [PERSONAL_POLICY_BOOST], fun pers => rfl, ?_, ?_⟩
  · intro bm25Data semanticDocs k pt pn maxb hcons
    exact docScores_scale bm25Data semanticDocs k pt pn maxb hcons
  · intro bm25Data semanticDocs k pt pn res h i j hi hj s hs _ _ hscorei hscorej
    by_contra hnot
    rcases Nat.lt_or_ge j i with hji | hij
    · have := hybrid_sorted h j i hj hi hji s (PERSONAL_POLICY_BOOST * s) hscorej hscorei
      have hB : PERSONAL_POLICY_BOOST = 3/2 := by
        norm_num [PERSONAL_POLICY_BOOST]
      rw [hB] at this
      linarith
    · have heq : i = j := le_antisymm hij (Nat.not_lt.mp hnot)
      subst heq
      have hx : (res.get ⟨i, hi⟩).metadata.relevance_score = some s := hscorej
      rw [hscorei] at hx
      have hxx := Option.some.inj hx
      have hB : PERSONAL_POLICY_BOOST = 3/2 := by
        norm_num [PERSONAL_POLICY_BOOST]
      rw [hB] at hxx
      linarith

/-- C3 counterexample: with `prefer_personal = true`, a general-class and a
personal-class chunk with identical pre-boost scores 0 both fuse to score 0
(the boost multiplies zero), and the stable sort keeps the general chunk
first — the personal chunk is not ranked strictly higher. -/
theorem C3_counterexample :
    _hybrid_retrieve [(genZero, 0), (persZero, 0)] [] 2 none none true =
      some [updateChunk genZero 0 false, updateChunk persZero 0 true] ∧
    isPersonal genZero = false ∧ isPersonal persZero = true := by
  refine ⟨?_, by decide, by decide⟩
  have hidg : docId genZero = "g_g" := by decide
  have hidp : docId persZero = "p_p" := by decide
  have hkey : (("g_g" : String) == "p_p") = false := by decide
  have hpg : passesFilter none none genZero = true := by decide
  have hpp : passesFilter none none persZero = true := by decide
  have hig : isPersonal genZero = false := by decide
  have hip : isPersonal persZero = true := by decide
  norm_num [_hybrid_retrieve, bm25Divisor, pyMax, docScores, bm25Candidates, bm25Step, semStep,
    dictSet, dictGet?, dictValues, containsKey, boostFactor,
    List.insertionSort, List.orderedInsert, List.enum, List.enumFrom, List.max?,
    hidg, hidp, hkey, hpg, hpp, hig, hip, PERSONAL_POLICY_BOOST, BM25_WEIGHT, SEMANTIC_WEIGHT,
    updateChunk]

/-- C3 witness: at a concrete universe the boosted score map is the scaled
unboosted map, and the personal chunk with boosted score `1.5 · (1/2)`
precedes the general chunk with score `1/2` in the ranked output. -/
theorem C3_witness :
    docScores [(genZero, 1), (persZero, 1)] [] 2 none none true 1 =
      scaleDict (docScores [(genZero, 1), (persZero, 1)] [] 2 none none false 1) ∧
    (0 : ℕ) < 1 := by
  constructor
  · refine C3_personal_boost.2.2.1 [(genZero, 1), (persZero, 1)] [] 2 none none 1 ?_
    intro c c' hc hc' hid
    simp at hc hc'
    rcases hc with rfl | rfl <;> rcases hc' with rfl | rfl
    · rfl
    · exact absurd hid (by decide)
    · exact absurd hid (by decide)
    · rfl
  · have hidg : docId genZero = "g_g" := by decide
    have hidp : docId persZero = "p_p" := by decide
    have hkey : (("g_g" : String) == "p_p") = false := by decide
    have hpg : passesFilter none none genZero = true := by decide
    have hpp : passesFilter none none persZero = true := by decide
    have hig : isPersonal genZero = false := by decide
    have hip : isPersonal persZero = true := by decide
    have heq : _hybrid_retrieve [(genZero, 1), (persZero, 1)] [] 2 none none true =
        some [updateChunk persZero (3/4) true, updateChunk genZero (1/2) false] := by
      norm_num [_hybrid_retrieve, bm25Divisor, pyMax, docScores, bm25Candidates, bm25Step,
        semStep, dictSet, dictGet?, dictValues, containsKey, boostFactor,
        List.insertionSort, List.orderedInsert, List.enum, List.enumFrom, List.max?,
        hidg, hidp, hkey, hpg, hpp, hig, hip, PERSONAL_POLICY_BOOST, BM25_WEIGHT,
        SEMANTIC_WEIGHT, updateChunk]
    exact C3_personal_boost.2.2.2 [(genZero, 1), (persZero, 1)] [] 2 none none
      [updateChunk persZero (3/4) true, updateChunk genZero (1/2) false] heq
      0 1 (by norm_num) (by norm_num) (1/2) (by norm_num) rfl rfl
      (by norm_num [updateChunk, PERSONAL_POLICY_BOOST]) rfl

/-! ## Claim C4 -/

lemma confidenceLevel_high_iff (conf : ℚ) :
    confidenceLevel conf = "high" ↔ 0.8 ≤ conf := by
  unfold confidenceLevel
  split_ifs with h1 h2 <;> simp only [String.reduceEq, true_iff, false_iff]
  · exact h1
  · intro h; exact h1 h
  · intro h; exact h1 h

lemma confidenceLevel_medium_iff (conf : ℚ) :
    confidenceLevel conf = "medium" ↔ 0.6 ≤ conf ∧ conf < 0.8 := by
  unfold confidenceLevel
  split_ifs with h1 h2 <;> simp only [String.reduceEq, true_iff, false_iff]
  · rintro ⟨-, h⟩; linarith
  · exact ⟨h2, lt_of_not_le h1⟩
  · rintro ⟨h, -⟩; exact h2 h

lemma confidenceLevel_low_iff (conf : ℚ) :
    confidenceLevel conf = "low" ↔ conf < 0.6 := by
  unfold confidenceLevel
  split_ifs with h1 h2 <;> simp only [String.reduceEq, true_iff, false_iff]
  · intro h; linarith
  · intro h; linarith
  · exact lt_of_not_le h2

/-- C4: `calculate_confidence_score` returns exactly
`0.4·retrieval + 0.4·faithfulness + 0.2·(1.0 if citations else 0.5)`, with
level "high" iff score ≥ 0.8, "medium" iff 0.6 ≤ score < 0.8, "low"
otherwise; and the three concrete instances from the spec behave as
stated. -/
theorem C4_confidence_score_spec :
    (∀ r f c, (calculate_confidence_score r f c).1 =
        0.4 * r + 0.4 * f + 0.2 * (if c then (1 : ℚ) else 0.5)) ∧
    (∀ r f c,
      ((calculate_confidence_score r f c).2 = "high" ↔
          0.8 ≤ (calculate_confidence_score r f c).1) ∧
      ((calculate_confidence_score r f c).2 = "medium" ↔
          0.6 ≤ (calculate_confidence_score r f c).1 ∧
            (calculate_confidence_score r f c).1 < 0.8) ∧
      ((calculate_confidence_score r f c).2 = "low" ↔
          (calculate_confidence_score r f c).1 < 0.6)) ∧
    (0.8 ≤ (calculate_confidence_score 0.9 0.95 true).1 ∧
      (calculate_confidence_score 0.9 0.95 true).2 = "high") ∧
    ((calculate_confidence_score 0.3 0.4 false).1 < 0.6 ∧
      (calculate_confidence_score 0.3 0.4 false).2 = "low") ∧
    (0.6 ≤ (calculate_confidence_score 0.6 0.7 true).1 ∧
      (calculate_confidence_score 0.6 0.7 true).1 < 0.8 ∧
      (calculate_confidence_score 0.6 0.7 true).2 = "medium") := by
  refine ⟨?_, ?_, ?_, ?_, ?_⟩
  · intro r f c
    simp only [calculate_confidence_score]
    ring
  · intro r f c
    have h2 : (calculate_confidence_score r f c).2 =
        confidenceLevel (calculate_confidence_score r f c).1 := rfl
    rw [h2]
    exact ⟨confidenceLevel_high_iff _, confidenceLevel_medium_iff _,
      confidenceLevel_low_iff _⟩
  · exact ⟨by norm_num [calculate_confidence_score],
      by norm_num [calculate_confidence_score, confidenceLevel]⟩
  · exact ⟨by norm_num [calculate_confidence_score],
      by norm_num [calculate_confidence_score, confidenceLevel]⟩
  · exact ⟨by norm_num [calculate_confidence_score],
      by norm_num [calculate_confidence_score],
      by norm_num [calculate_confidence_score, confidenceLevel]⟩
